import Mathlib

/-!
Verification of the BIP32-style HD private key engine (`lib/hdprivatekey.js`,
the canonical assert-checked module; `lib/hdprivkey.js` is superseded per §9
of the design notes).

Byte buffers are shallowly embedded as `List Nat` (each entry one byte).
External collaborators (HMAC-SHA512, hash160, the EC point primitive, the
Base58Check codec, the JSON codec and the random source) are exactly the
modules the spec declares out of scope (§1, §6); they are passed in as the
fields of a `Crypto` record, so every theorem quantifies over them, and the
concrete record `cx` below instantiates them for evaluation on concrete
inputs.
-/

namespace BitcoreHD

/-- A byte buffer: a list of naturals, one byte per entry. -/
abbrev Bytes := List Nat

/-- Big-endian fixed-width rendering of an integer, as `BN.toBuffer` with a
`size` option and `bufferUtil.integerAsBuffer` (per-byte `& 0xff` masks)
produce: low byte last, truncating above `256 ^ width`. -/
def natToBytes : Nat → Nat → Bytes
  | 0, _ => []
  | w + 1, n => natToBytes w (n / 256) ++ [n % 256]

/-- Big-endian integer from a byte buffer (`BN.fromBuffer`). -/
def fromBE (l : Bytes) : Nat := l.foldl (fun acc b => acc * 256 + b) 0

/-- `bufferUtil.integerFromBuffer`: reads the first four bytes, big-endian. -/
def fromBE4 (l : Bytes) : Nat := fromBE (l.take 4)

/-- The secp256k1 group order `N` (`Point.getN()`); the EC primitive is an
external collaborator (§6), the constant is the curve order the spec's
glossary names. -/
def curveN : Nat :=
  0xFFFFFFFFFFFFFFFFFFFFFFFFFFFFFFFEBAAEDCE6AF48A03BBFD25E8CD0364141

/-- The hardened-derivation offset `HDPrivateKey.Hardened = 0x80000000`. -/
def hardenedOffset : Nat := 0x80000000

/-- Modelled from the spec: the network registry (`lib/networks.js`) is an
external collaborator; §6 only requires distinct 4-byte xprivkey version
constants for mainnet (livenet) and testnet, which BIP32 fixes as below. -/
inductive Network
  | livenet
  | testnet
deriving DecidableEq

/-- Modelled from the spec: the per-network serialization version constant. -/
def Network.xprivkey : Network → Nat
  | .livenet => 0x0488ADE4
  | .testnet => 0x04358394

/-- A JavaScript value passed where a network is expected: a network object,
a name string, a version number, or `undefined`. -/
inductive NetworkArg
  | net (n : Network)
  | name (s : String)
  | num (v : Nat)
  | undefinedVal
deriving DecidableEq

/-- Modelled from the spec: `Network.get` resolves a network object to
itself, a registered name to its network, a registered xprivkey version
number to its network, and anything else to `undefined`. -/
def networkFromNumber (v : Nat) : Option Network :=
  if v = Network.xprivkey .livenet then some .livenet
  else if v = Network.xprivkey .testnet then some .testnet
  else none

/-- Modelled from the spec: `Network.get` on the argument shapes used by the
HD key module. -/
def networkGet : NetworkArg → Option Network
  | .net n => some n
  | .name s =>
    if s = "livenet" then some .livenet
    else if s = "testnet" then some .testnet
    else none
  | .num v => networkFromNumber v
  | .undefinedVal => none

/-- JavaScript truthiness of a network argument (used by
`_buildFromObject`'s `arg.network ? ... : arg.version`). -/
def netArgTruthy : NetworkArg → Bool
  | .net _ => true
  | .name s => !(s == "")
  | .num v => !(v == 0)
  | .undefinedVal => false

/-- The closed error taxonomy of `HDPrivateKey.Error` (§7), plus the two
failure modes of plain JavaScript runtime errors the module can raise: a
failed `assert` in `_validateBufferArguments` and a `TypeError` from
dereferencing an unresolved network. -/
inductive Err
  | invalidArgument
  | invalidB58Char
  | invalidB58Checksum
  | invalidLength
  | invalidNetwork
  | invalidNetworkArgument
  | invalidDerivationArgument
  | invalidPath
  | invalidEntropyArgument
  | notEnoughEntropy
  | tooMuchEntropy
  | unrecognizedArgument
  | assertionFailed
  | typeError
deriving DecidableEq

/-- A JavaScript value that is either a number, a buffer, or `undefined`
(the accepted shapes of `parentFingerPrint`, `childIndex` and `checksum` in
a field bag). -/
inductive NumOrBuf
  | num (n : Nat)
  | buf (b : Bytes)
  | undefinedVal

/-- A JavaScript value that is either a string, a buffer, or `undefined`
(the accepted shapes of `chainCode` and `privateKey` in a field bag). -/
inductive StrOrBuf
  | str (s : String)
  | buf (b : Bytes)
  | undefinedVal

/-- A field value after `_buildFromObject` normalization: a buffer, or a
non-buffer (undefined / wrongly typed) value that `_validateBufferArguments`
will reject. -/
inductive BufVal
  | buf (b : Bytes)
  | nonbuf

/-- The plain field-bag accepted by the construction dispatcher (§4.1):
`{network, depth, parentFingerPrint, childIndex, chainCode, privateKey,
checksum?}`, each field in its number / hex-string / buffer form. `version`
is the raw buffer fallback used when `network` is falsy. -/
structure FieldObj where
  network : NetworkArg
  version : BufVal
  depth : Nat
  parentFingerPrint : NumOrBuf
  childIndex : NumOrBuf
  chainCode : StrOrBuf
  privateKey : StrOrBuf
  checksum : NumOrBuf

/-- The argument of `_buildFromBuffers`: one `BufVal` per layout field, the
optional checksum, and the optional pre-validated serialized text. -/
structure RawBuffers where
  version : BufVal
  depth : BufVal
  parentFingerPrint : BufVal
  childIndex : BufVal
  chainCode : BufVal
  privateKey : BufVal
  checksum : Option Bytes
  xprivkey : Option String

/-- A fully built extended private key: the `_buffers` fields plus the
cached `xprivkey` text and `fingerPrint`. -/
structure HDKey where
  version : Bytes
  depthBuffer : Bytes
  parentFingerPrint : Bytes
  childIndex : Bytes
  chainCode : Bytes
  privateKey : Bytes
  checksum : Bytes
  xprivkey : String
  fingerPrint : Bytes
deriving DecidableEq

/-- `this.depth = integerFromSingleByteBuffer(arg.depth)`: the single depth
byte. -/
def HDKey.depth (k : HDKey) : Nat := k.depthBuffer.headD 0

/-- `this.privateKey.toBigNumber()`: the stored 32-byte scalar as an
integer. -/
def HDKey.scalar (k : HDKey) : Nat := fromBE k.privateKey

/-- `this.network = Network.get(integerFromBuffer(arg.version))`. -/
def HDKey.network (k : HDKey) : Option Network :=
  networkFromNumber (fromBE4 k.version)

/-- The external collaborators of §1/§6, passed as parameters: hash
primitives, EC serialization, the Base58Check codec, the JSON codec and the
random source. `sha512hmac` takes `(data, key)` in the argument order of
`Hash.sha512hmac`; `b58cDecode` returns `none` where the codec throws. -/
structure Crypto where
  sha512hmac : Bytes → Bytes → Bytes
  hash160 : Bytes → Bytes
  pubKeyBuffer : Nat → Bytes
  b58cEncode : Bytes → String
  b58cDecode : String → Option Bytes
  b58cChecksum : Bytes → Bytes
  getRandomBuffer : Nat → Bytes
  jsonParse : String → Option FieldObj

/-- The input of `isValidSerialized` / `getSerializedError`: a string, a
buffer, or some other (rejected) JavaScript value. -/
inductive SData
  | str (s : String)
  | bytes (b : Bytes)
  | other

/-- The string form of the data: a buffer is read as text (as
`Buffer.prototype.toString` does before the Base58 character check and
decode). -/
def SData.asString : SData → String
  | .str s => s
  | .bytes b => String.mk (b.map Char.ofNat)
  | .other => ""

/-- Modelled from the spec: the Base58 alphabet of the external
`Base58` codec (§4.2 step 2). -/
def b58Alphabet : List Char :=
  "123456789ABCDEFGHJKLMNPQRSTUVWXYZabcdefghijkmnopqrstuvwxyz".toList

/-- `Base58.validCharacters`: every character lies in the Base58 alphabet. -/
def validCharacters (s : String) : Bool :=
  s.toList.all (fun ch => b58Alphabet.contains ch)

/-- `HDPrivateKey.getSerializedError` (lines 177-212): the validation
cascade, including `_validateNetwork`. -/
def getSerializedError (c : Crypto) (data : SData) (network : NetworkArg) :
    Option Err :=
  match data with
  | .other => some .invalidArgument
  | d =>
    if !(validCharacters d.asString) then some .invalidB58Char
    else
      match c.b58cDecode d.asString with
      | none => some .invalidB58Checksum
      | some decoded =>
        if decoded.length ≠ 78 then some .invalidLength
        else
          match network with
          | .undefinedVal => none
          | nw =>
            match networkGet nw with
            | none => some .invalidNetworkArgument
            | some net =>
              if fromBE4 (decoded.take 4) ≠ net.xprivkey then
                some .invalidNetwork
              else none

/-- `HDPrivateKey.isValidSerialized`. -/
def isValidSerialized (c : Crypto) (data : SData) (network : NetworkArg) :
    Bool :=
  (getSerializedError c data network).isNone

/-- The size checks of `_validateBufferArguments`: each field is a buffer of
the declared width; a present, non-empty checksum must be 4 bytes. -/
def validSizes (v d pfp ci cc pk : Bytes) (cs : Option Bytes) : Bool :=
  v.length == 4 && d.length == 1 && pfp.length == 4 && ci.length == 4 &&
    cc.length == 32 && pk.length == 32 &&
    (match cs with
     | some l => l.isEmpty || l.length == 4
     | none => true)

/-- The 78-byte payload `buffer.Buffer.concat(sequence)` of
`_buildFromBuffers`: the six fields in layout order with the single zero
padding byte before the private key. -/
def payloadOf (v d pfp ci cc pk : Bytes) : Bytes :=
  v ++ d ++ pfp ++ ci ++ cc ++ [0] ++ pk

/-- The serialized text kept on the key: the pre-validated text when given,
else the Base58Check encoding of the payload. -/
def xprivkeyOf (c : Crypto) (payload : Bytes) : Option String → String
  | some s => s
  | none => c.b58cEncode payload

/-- `this.fingerPrint = Hash.sha256ripemd160(publicKey.toBuffer()).slice(0, 4)`. -/
def fingerPrintOf (c : Crypto) (pk : Bytes) : Bytes :=
  (c.hash160 (c.pubKeyBuffer (fromBE pk))).take 4

/-- The key populated by `_buildFromBuffers` from validated buffers. -/
def mkHDKey (c : Crypto) (v d pfp ci cc pk cs : Bytes) (xk : Option String) :
    HDKey :=
  ⟨v, d, pfp, ci, cc, pk, cs, xprivkeyOf c (payloadOf v d pfp ci cc pk) xk,
    fingerPrintOf c pk⟩

/-- `HDPrivateKey.prototype._buildFromBuffers` (lines 303-340): validate the
buffer sizes, concatenate the 78-byte payload, compute or verify the
checksum, keep or compute the Base58Check text, and populate the key. -/
def buildFromBuffers (c : Crypto) (r : RawBuffers) : Except Err HDKey :=
  match r.version, r.depth, r.parentFingerPrint, r.childIndex, r.chainCode,
      r.privateKey with
  | .buf v, .buf d, .buf pfp, .buf ci, .buf cc, .buf pk =>
    if validSizes v d pfp ci cc pk r.checksum then
      match r.checksum with
      | some cs =>
        if cs ≠ [] then
          if cs ≠ c.b58cChecksum (payloadOf v d pfp ci cc pk) then
            .error .invalidB58Checksum
          else .ok (mkHDKey c v d pfp ci cc pk cs r.xprivkey)
        else
          .ok (mkHDKey c v d pfp ci cc pk
            (c.b58cChecksum (payloadOf v d pfp ci cc pk)) r.xprivkey)
      | none =>
        .ok (mkHDKey c v d pfp ci cc pk
          (c.b58cChecksum (payloadOf v d pfp ci cc pk)) r.xprivkey)
    else .error .assertionFailed
  | _, _, _, _, _, _ => .error .assertionFailed

/-- Whether a string is entirely hexadecimal digits (`jsUtil.isHexa`,
regex `[0-9a-fA-F]+` on a non-empty string). -/
def isHexDigit (ch : Char) : Bool :=
  (('0' ≤ ch) && (ch ≤ '9')) || (('a' ≤ ch) && (ch ≤ 'f')) ||
    (('A' ≤ ch) && (ch ≤ 'F'))

/-- `jsUtil.isHexa` / `isHexaString`. -/
def isHexa (s : String) : Bool := !(s == "") && s.toList.all isHexDigit

/-- Value of one hex digit. -/
def hexVal (ch : Char) : Nat :=
  if ('0' ≤ ch) && (ch ≤ '9') then ch.toNat - 48
  else if ('a' ≤ ch) && (ch ≤ 'f') then ch.toNat - 87
  else if ('A' ≤ ch) && (ch ≤ 'F') then ch.toNat - 55
  else 0

/-- Consecutive hex-digit pairs to bytes (a trailing odd digit is dropped,
as `Buffer.from(s, hex)` does). -/
def hexPairs : List Char → Bytes
  | a :: b :: rest => (hexVal a * 16 + hexVal b) :: hexPairs rest
  | _ => []

/-- `bufferUtil.hexToBuffer`. -/
def hexToBuffer (s : String) : Bytes := hexPairs s.toList

/-- `HDPrivateKey.prototype._buildFromObject` (lines 218-231): normalize
each field of the bag to its buffer form and delegate to
`_buildFromBuffers`. A truthy `network` whose registry lookup fails makes
the source dereference `undefined` (a `TypeError`). -/
def buildFromObject (c : Crypto) (o : FieldObj) : Except Err HDKey :=
  let versionVal : Except Err BufVal :=
    if netArgTruthy o.network then
      match networkGet o.network with
      | some nw => .ok (.buf (natToBytes 4 nw.xprivkey))
      | none => .error .typeError
    else .ok o.version
  match versionVal with
  | .error e => .error e
  | .ok version =>
    buildFromBuffers c {
      version := version
      depth := .buf (natToBytes 1 o.depth)
      parentFingerPrint :=
        match o.parentFingerPrint with
        | .num m => .buf (natToBytes 4 m)
        | .buf b => .buf b
        | .undefinedVal => .nonbuf
      childIndex :=
        match o.childIndex with
        | .num m => .buf (natToBytes 4 m)
        | .buf b => .buf b
        | .undefinedVal => .nonbuf
      chainCode :=
        match o.chainCode with
        | .str s => .buf (hexToBuffer s)
        | .buf b => .buf b
        | .undefinedVal => .nonbuf
      privateKey :=
        match o.privateKey with
        | .str s => if isHexa s then .buf (hexToBuffer s) else .nonbuf
        | .buf b => .buf b
        | .undefinedVal => .nonbuf
      checksum :=
        match o.checksum with
        | .num m => if m = 0 then none else some (natToBytes 4 m)
        | .buf b => if b = [] then some (natToBytes 4 0) else some b
        | .undefinedVal => none
      xprivkey := none }

/-- `HDPrivateKey.prototype._buildFromSerialized` (lines 233-247):
Base58Check-decode and slice at the fixed offsets of the §4.2 layout table
(`PrivateKeyStart = ChainCodeEnd + 1` skips the padding byte at offset 45);
the text itself is kept as `xprivkey`. -/
def buildFromSerialized (c : Crypto) (s : String) : Except Err HDKey :=
  match c.b58cDecode s with
  | none => .error .invalidB58Checksum
  | some decoded =>
    buildFromBuffers c {
      version := .buf (decoded.take 4)
      depth := .buf ((decoded.drop 4).take 1)
      parentFingerPrint := .buf ((decoded.drop 5).take 4)
      childIndex := .buf ((decoded.drop 9).take 4)
      chainCode := .buf ((decoded.drop 13).take 32)
      privateKey := .buf ((decoded.drop 46).take 32)
      checksum := some ((decoded.drop 78).take 4)
      xprivkey := some s }

/-- The ASCII bytes of the fixed HMAC key `Buffer("Bitcoin seed")`. -/
def bitcoinSeedKey : Bytes := "Bitcoin seed".toList.map Char.toNat

/-- The entropy argument of `fromSeed`: a buffer, a string, or some other
(rejected) value. -/
inductive SeedArg
  | bytes (b : Bytes)
  | str (s : String)
  | other

/-- `HDPrivateKey.fromSeed` (lines 260-285): hex strings are decoded first;
non-buffers are rejected; the length must lie in 16..64 bytes; the master
key fields come from `HMAC-SHA512(key = Bitcoin seed, message = entropy)`.
The constants are `MINIMUM_ENTROPY_BITS * BITS_TO_BYTES = 128 / 8 = 16` and
`MAXIMUM_ENTROPY_BITS * BITS_TO_BYTES = 512 / 8 = 64`. This definition is
the buffer-entropy stage (the length checks and key construction). -/
def fromSeedBuffer (c : Crypto) (b : Bytes) (network : NetworkArg) :
    Except Err HDKey :=
  if b.length < 16 then .error .notEnoughEntropy
  else if 64 < b.length then .error .tooMuchEntropy
  else
    buildFromObject c {
      network := .net ((networkGet network).getD Network.livenet)
      version := .nonbuf
      depth := 0
      parentFingerPrint := .num 0
      childIndex := .num 0
      chainCode := .buf (((c.sha512hmac b bitcoinSeedKey).drop 32).take 32)
      privateKey := .buf ((c.sha512hmac b bitcoinSeedKey).take 32)
      checksum := .undefinedVal }

/-- The argument-normalization stage of `fromSeed`: a hex string is decoded
to its buffer first (`isHexaString` / `hexToBuffer`); anything that is not
a buffer after that fails `InvalidEntropyArgument`. -/
def fromSeed (c : Crypto) (seed0 : SeedArg) (network : NetworkArg) :
    Except Err HDKey :=
  match seed0 with
  | .str s =>
    if isHexa s then fromSeedBuffer c (hexToBuffer s) network
    else .error .invalidEntropyArgument
  | .bytes b => fromSeedBuffer c b network
  | .other => .error .invalidEntropyArgument

/-- Index/hardened normalization of `_deriveWithNumber` (lines 98-103): an
index at or above `2^31` forces the hardened flag; a hardened index below
`2^31` has the offset added. -/
def normalizeIndex (index0 : Nat) (hardened0 : Bool) : Nat × Bool :=
  let hardened := if hardenedOffset ≤ index0 then true else hardened0
  let index :=
    if index0 < hardenedOffset ∧ hardened = true then index0 + hardenedOffset
    else index0
  (index, hardened)

/-- The HMAC-SHA512 input of `_deriveWithNumber` (lines 109-115): hardened
uses `0x00 ‖ privateKey (32B) ‖ index (4B BE)`, non-hardened uses the
compressed public key followed by the index. `PrivateKey.toBuffer` is
modelled from the spec as the 32-byte big-endian scalar (§4.4) — identical
to the stored `privateKey` buffer; `publicKey.toBuffer` is the 33-byte
compressed point of the scalar (§4.4), i.e. `c.pubKeyBuffer`. -/
def hmacInput (c : Crypto) (k : HDKey) (index : Nat) (hardened : Bool) :
    Bytes :=
  if hardened then [0] ++ k.privateKey ++ natToBytes 4 index
  else c.pubKeyBuffer k.scalar ++ natToBytes 4 index

/-- `Hash.sha512hmac(data, this._buffers.chainCode)` (line 116). -/
def deriveHash (c : Crypto) (k : HDKey) (index : Nat) (hardened : Bool) :
    Bytes :=
  c.sha512hmac (hmacInput c k index hardened) k.chainCode

/-- The body of `_deriveWithNumber` after index normalization (lines
104-131): hash, split into left part and child chain code, add the parent
scalar mod `N`, and build the child key. The memoization store is
observably transparent (§8, cache transparency), so derivation is modelled
as the pure computation. -/
def deriveNormalized (c : Crypto) (k : HDKey) (index : Nat)
    (hardened : Bool) : Except Err HDKey :=
  buildFromObject c {
    network := match k.network with
      | some nw => .net nw
      | none => .undefinedVal
    version := .nonbuf
    depth := k.depth + 1
    parentFingerPrint := .buf k.fingerPrint
    childIndex := .num index
    chainCode := .buf ((deriveHash c k index hardened).drop 32 |>.take 32)
    privateKey := .buf (natToBytes 32
      ((fromBE ((deriveHash c k index hardened).take 32) + k.scalar) %
        curveN))
    checksum := .undefinedVal }

/-- `HDPrivateKey.prototype._deriveWithNumber` (lines 95-132): normalize
the index and hardened flag, then derive. -/
def deriveWithNumber (c : Crypto) (k : HDKey) (index0 : Nat)
    (hardened0 : Bool) : Except Err HDKey :=
  deriveNormalized c k (normalizeIndex index0 hardened0).1
    (normalizeIndex index0 hardened0).2

/-- `HDPrivateKey.RootElementAlias`. -/
def rootAliases : List String := ["m", "M", "m\x27", "M\x27"]

/-- JavaScript `String.prototype.split` with a one-character separator,
on `/`. -/
def splitCharsOn (sep : Char) (l : List Char) : List (List Char) :=
  l.foldr
    (fun ch acc =>
      match acc with
      | cur :: rest =>
        if ch = sep then [] :: cur :: rest else (ch :: cur) :: rest
      | [] => [[ch]])
    [[]]

/-- `path.split("/")`. -/
def splitSlash (s : String) : List String :=
  (splitCharsOn '/' s.toList).map (fun l => String.mk l)

/-- Decimal digit character. -/
def digitChar (n : Nat) : Char := Char.ofNat (48 + n)

/-- Fueled decimal rendering (fuel `n + 1` always suffices). -/
def decimalChars : Nat → Nat → List Char
  | 0, _ => []
  | fuel + 1, n =>
    if n < 10 then [digitChar n]
    else decimalChars fuel (n / 10) ++ [digitChar (n % 10)]

/-- Modelled from the spec: JavaScript `Number.prototype.toString` on a
nonnegative integer is its plain decimal rendering (§4.5). -/
def natStr (n : Nat) : String := String.mk (decimalChars (n + 1) n)

/-- Modelled from the spec: JavaScript `parseInt` on a path segment reads
the longest leading digit run; a segment with no leading digit yields `NaN`
(§4.5 describes only segments that parse as integers). -/
def parseIntJs (s : String) : Option Nat :=
  let ds := s.toList.takeWhile (fun ch => ('0' ≤ ch) && (ch ≤ '9'))
  if ds = [] then none
  else some (ds.foldl (fun acc ch => acc * 10 + (ch.toNat - 48)) 0)

/-- `HDPrivateKey.prototype._deriveFromString` (lines 134-153): a root
alias returns the key itself; otherwise the first segment must be a root
alias; each remaining segment derives by its parsed integer, hardened
exactly when the segment text differs from the decimal rendering of that
integer. A segment that parses to `NaN` is outside the specified behavior
(§4.5) and is modelled as an `InvalidPath` failure. -/
def deriveFromString (c : Crypto) (k : HDKey) (path : String) :
    Except Err HDKey :=
  let steps := splitSlash path
  if rootAliases.contains path then .ok k
  else if !(rootAliases.contains (steps.headD "")) then .error .invalidPath
  else
    (steps.drop 1).foldlM
      (fun acc s =>
        match parseIntJs s with
        | some index => deriveWithNumber c acc index (s != natStr index)
        | none => .error .invalidPath)
      k

/-- The argument of `derive`: a number, a string, or some other (rejected)
value. -/
inductive DeriveArg
  | num (n : Nat)
  | str (s : String)
  | other

/-- `HDPrivateKey.prototype.derive` (lines 85-93). -/
def derive (c : Crypto) (k : HDKey) (arg : DeriveArg) (hardened : Bool) :
    Except Err HDKey :=
  match arg with
  | .num n => deriveWithNumber c k n hardened
  | .str s => deriveFromString c k s
  | .other => .error .invalidDerivationArgument

/-- A constructor argument: an existing key, a string, a buffer, a field
bag, or one of the primitive JavaScript values the dispatcher can see. -/
inductive CtorArg
  | key (k : HDKey)
  | str (s : String)
  | bytes (b : Bytes)
  | obj (o : FieldObj)
  | num (n : Int)
  | boolv (b : Bool)
  | nullv
  | undefinedVal

/-- JavaScript truthiness of a constructor argument (`if (arg)`). -/
def truthyArg : CtorArg → Bool
  | .key _ => true
  | .str s => !(s == "")
  | .bytes _ => true
  | .obj _ => true
  | .num n => !(n == 0)
  | .boolv b => b
  | .nullv => false
  | .undefinedVal => false

/-- The string/buffer branch of the constructor (lines 44-51): serialized
text is decoded; otherwise valid JSON builds from the parsed bag; otherwise
the serialized-form error itself is thrown. `jsonParse` is `none` when
`JSON.parse` throws or yields a falsy value (the JSON codec is external). -/
def serialBranch (c : Crypto) (d : SData) : Except Err HDKey :=
  if isValidSerialized c d .undefinedVal then buildFromSerialized c d.asString
  else
    match c.jsonParse d.asString with
    | some o => buildFromObject c o
    | none => .error ((getSerializedError c d .undefinedVal).getD .invalidArgument)

/-- `HDPrivateKey.prototype._generateRandomly` (lines 249-251), with the
random source passed in through `c.getRandomBuffer`. -/
def generateRandomly (c : Crypto) : Except Err HDKey :=
  fromSeed c (.bytes (c.getRandomBuffer 64)) .undefinedVal

/-- The constructor `HDPrivateKey(arg)` (lines 35-62): an existing key is
returned as-is; a truthy string/buffer goes through the serialized/JSON
branch; a truthy non-object fails `UnrecognizedArgument`; a falsy argument
generates a random key. -/
def construct (c : Crypto) (arg : CtorArg) : Except Err HDKey :=
  match arg with
  | .key k => .ok k
  | _ =>
    if truthyArg arg then
      match arg with
      | .str s => serialBranch c (.str s)
      | .bytes b => serialBranch c (.bytes b)
      | .obj o => buildFromObject c o
      | _ => .error .unrecognizedArgument
    else generateRandomly c

/-- §4.2's validation cascade transcribed from the specification text, for
comparison with `getSerializedError`: `InvalidArgument` when the input is
neither text nor bytes; otherwise `InvalidB58Char` when some character is
outside the Base58 alphabet; otherwise `InvalidB58Checksum` when decoding
fails; otherwise `InvalidLength` when the payload is not 78 bytes;
otherwise, when a network is given, `InvalidNetworkArgument` for an unknown
network and `InvalidNetwork` for a version mismatch; otherwise valid. -/
def getSerializedErrorBySpec (c : Crypto) (data : SData)
    (network : NetworkArg) : Option Err :=
  match data with
  | .other => some .invalidArgument
  | d =>
    if d.asString.toList.any (fun ch => !(b58Alphabet.contains ch)) then
      some .invalidB58Char
    else
      match c.b58cDecode d.asString with
      | none => some .invalidB58Checksum
      | some payload =>
        if payload.length ≠ 78 then some .invalidLength
        else
          match network with
          | .undefinedVal => none
          | nw =>
            match networkGet nw with
            | none => some .invalidNetworkArgument
            | some net =>
              if fromBE4 (payload.take 4) ≠ net.xprivkey then
                some .invalidNetwork
              else none

/-- The 78-byte payload used by the concrete witnesses: livenet version,
depth 0, zero fingerprint and child index, chain code of 1-bytes, private
key of 2-bytes. -/
def payload0 : Bytes :=
  natToBytes 4 (Network.xprivkey .livenet) ++ [0] ++ List.replicate 4 0 ++
    List.replicate 4 0 ++ List.replicate 32 1 ++ [0] ++ List.replicate 32 2

/-- A concrete instantiation of the external collaborators, used to
evaluate the embedding on concrete inputs: constant hash outputs of the
right widths, and a Base58Check codec whose encode/decode pair round-trips
on `payload0`. -/
def cx : Crypto where
  sha512hmac := fun _ _ => List.replicate 64 5
  hash160 := fun _ => List.replicate 20 7
  pubKeyBuffer := fun _ => List.replicate 33 4
  b58cEncode := fun _ => "K"
  b58cDecode := fun s => if s = "K" then some payload0 else none
  b58cChecksum := fun _ => List.replicate 4 0
  getRandomBuffer := fun n => List.replicate n 3
  jsonParse := fun _ => none

/-- A concrete well-formed parent key (livenet, depth 0). -/
def key0 : HDKey where
  version := natToBytes 4 (Network.xprivkey .livenet)
  depthBuffer := [0]
  parentFingerPrint := List.replicate 4 0
  childIndex := List.replicate 4 0
  chainCode := List.replicate 32 1
  privateKey := List.replicate 32 2
  checksum := List.replicate 4 0
  xprivkey := "K"
  fingerPrint := List.replicate 4 9

/-- A buffer bag whose depth byte is 255, at the top of the depth range. -/
def bag255 : RawBuffers where
  version := .buf (natToBytes 4 (Network.xprivkey .livenet))
  depth := .buf [255]
  parentFingerPrint := .buf (List.replicate 4 0)
  childIndex := .buf (List.replicate 4 0)
  chainCode := .buf (List.replicate 32 1)
  privateKey := .buf (List.replicate 32 2)
  checksum := none
  xprivkey := none

/-- A buffer bag whose private key is all-zero bytes (scalar 0). -/
def bag0 : RawBuffers where
  version := .buf (natToBytes 4 (Network.xprivkey .livenet))
  depth := .buf [0]
  parentFingerPrint := .buf (List.replicate 4 0)
  childIndex := .buf (List.replicate 4 0)
  chainCode := .buf (List.replicate 32 1)
  privateKey := .buf (List.replicate 32 0)
  checksum := none
  xprivkey := none

/-- An empty placeholder key (only used as a `getD` default). -/
def emptyKey : HDKey := ⟨[], [], [], [], [], [], [], "", []⟩

/-- The concrete child of `key0` at index 0, non-hardened. -/
def child0 : HDKey :=
  ((deriveWithNumber cx key0 0 false).toOption).getD emptyKey

/-- The error of a failed construction, if any (the thrown value). -/
def errOf : Except Err HDKey → Option Err
  | .error e => some e
  | .ok _ => none

/-! ### Byte-arithmetic helper lemmas -/

theorem length_natToBytes (w n : Nat) : (natToBytes w n).length = w := by
  induction w generalizing n with
  | zero => rfl
  | succ w ih => simp [natToBytes, ih]

theorem fromBE_append_last (l : Bytes) (b : Nat) :
    fromBE (l ++ [b]) = fromBE l * 256 + b := by
  simp [fromBE, List.foldl_append]

theorem fromBE_natToBytes (w n : Nat) :
    fromBE (natToBytes w n) = n % 256 ^ w := by
  induction w generalizing n with
  | zero => simp [natToBytes, fromBE, Nat.mod_one]
  | succ w ih =>
    rw [natToBytes, fromBE_append_last, ih, pow_succ', Nat.mod_mul]
    ring

theorem fromBE_natToBytes_of_lt (w n : Nat) (h : n < 256 ^ w) :
    fromBE (natToBytes w n) = n := by
  rw [fromBE_natToBytes, Nat.mod_eq_of_lt h]

theorem networkFromNumber_xprivkey (n : Network) :
    networkFromNumber n.xprivkey = some n := by
  cases n <;> decide

theorem network_version_roundtrip (n : Network) :
    networkFromNumber (fromBE4 (natToBytes 4 n.xprivkey)) = some n := by
  cases n <;> decide

/-! ### Structural lemmas about the builders -/

theorem buildFromBuffers_closed (c : Crypto) (v d pfp ci cc pk : Bytes)
    (xk : Option String) (hv : v.length = 4) (hd : d.length = 1)
    (hpfp : pfp.length = 4) (hci : ci.length = 4) (hcc : cc.length = 32)
    (hpk : pk.length = 32) :
    buildFromBuffers c
        ⟨.buf v, .buf d, .buf pfp, .buf ci, .buf cc, .buf pk, none, xk⟩ =
      .ok (mkHDKey c v d pfp ci cc pk
        (c.b58cChecksum (payloadOf v d pfp ci cc pk)) xk) := by
  have hvs : validSizes v d pfp ci cc pk none = true := by
    simp [validSizes, hv, hd, hpfp, hci, hcc, hpk]
  simp [buildFromBuffers, hvs]

theorem buildFromBuffers_ok_shape (c : Crypto) (r : RawBuffers) (k : HDKey)
    (h : buildFromBuffers c r = .ok k) :
    r.version = .buf k.version ∧ r.depth = .buf k.depthBuffer ∧
    r.parentFingerPrint = .buf k.parentFingerPrint ∧
    r.childIndex = .buf k.childIndex ∧ r.chainCode = .buf k.chainCode ∧
    r.privateKey = .buf k.privateKey ∧ k.version.length = 4 ∧
    k.depthBuffer.length = 1 ∧ k.parentFingerPrint.length = 4 ∧
    k.childIndex.length = 4 ∧ k.chainCode.length = 32 ∧
    k.privateKey.length = 32 := by
  unfold buildFromBuffers at h
  split at h
  case h_2 => exact Except.noConfusion h
  case h_1 v d pfp ci cc pk hveq hdeq hpfeq hcieq hcceq hpkeq =>
    split at h
    case isFalse => exact Except.noConfusion h
    case isTrue hvs =>
      simp only [validSizes, Bool.and_eq_true, beq_iff_eq] at hvs
      obtain ⟨⟨⟨⟨⟨⟨hv, hd1⟩, hp1⟩, hc1⟩, hcc1⟩, hpk1⟩, -⟩ :=
        And.intro hvs trivial
      repeat split at h
      all_goals first
        | exact Except.noConfusion h
        | (injection h with h2; subst h2; simp_all [mkHDKey])

theorem buildFromBuffers_error_shape (c : Crypto) (r : RawBuffers) (e : Err)
    (h : buildFromBuffers c r = .error e) :
    e = .assertionFailed ∨ e = .invalidB58Checksum := by
  unfold buildFromBuffers at h
  repeat split at h
  all_goals first
    | exact Except.noConfusion h
    | (injection h with h2; subst h2; simp)

theorem buildFromObject_closed (c : Crypto) (n : Network) (dep ci : Nat)
    (pfp cc pk : Bytes) (hpfp : pfp.length = 4) (hcc : cc.length = 32)
    (hpk : pk.length = 32) :
    buildFromObject c
        ⟨.net n, .nonbuf, dep, .buf pfp, .num ci, .buf cc, .buf pk, .undefinedVal⟩ =
      .ok (mkHDKey c (natToBytes 4 n.xprivkey) (natToBytes 1 dep) pfp
        (natToBytes 4 ci) cc pk
        (c.b58cChecksum (payloadOf (natToBytes 4 n.xprivkey)
          (natToBytes 1 dep) pfp (natToBytes 4 ci) cc pk)) none) := by
  have h1 := buildFromBuffers_closed c (natToBytes 4 n.xprivkey)
    (natToBytes 1 dep) pfp (natToBytes 4 ci) cc pk none
    (length_natToBytes 4 _) (length_natToBytes 1 _) hpfp
    (length_natToBytes 4 _) hcc hpk
  simpa [buildFromObject, networkGet, netArgTruthy] using h1

theorem buildFromObject_error_shape (c : Crypto) (o : FieldObj) (e : Err)
    (h : buildFromObject c o = .error e) :
    e = .typeError ∨ e = .assertionFailed ∨ e = .invalidB58Checksum := by
  unfold buildFromObject at h
  by_cases hn : netArgTruthy o.network = true
  · simp only [hn, if_true] at h
    cases hg : networkGet o.network with
    | none =>
      rw [hg] at h
      injection h with h2
      exact Or.inl h2.symm
    | some nw =>
      rw [hg] at h
      rcases buildFromBuffers_error_shape _ _ _ h with h2 | h2 <;> simp [h2]
  · have hn' : netArgTruthy o.network = false := by
      revert hn; cases netArgTruthy o.network <;> simp
    simp only [hn', Bool.false_eq_true, if_false] at h
    rcases buildFromBuffers_error_shape _ _ _ h with h2 | h2 <;> simp [h2]

theorem fromSeedBuffer_ne_unrecognized (c : Crypto) (b : Bytes)
    (net : NetworkArg) :
    fromSeedBuffer c b net ≠ .error .unrecognizedArgument := by
  intro h
  unfold fromSeedBuffer at h
  repeat' split at h
  all_goals first
    | simp at h
    | (rcases buildFromObject_error_shape _ _ _ h with h2 | h2 | h2 <;>
        exact Err.noConfusion h2)

theorem fromSeed_ne_unrecognized (c : Crypto) (seed : SeedArg)
    (net : NetworkArg) :
    fromSeed c seed net ≠ .error .unrecognizedArgument := by
  intro h
  rcases seed with b | s | _
  · exact fromSeedBuffer_ne_unrecognized c b net h
  · rw [show fromSeed c (.str s) net =
        (if isHexa s then fromSeedBuffer c (hexToBuffer s) net
         else .error .invalidEntropyArgument) from rfl] at h
    split at h
    · exact fromSeedBuffer_ne_unrecognized c _ net h
    · simp at h
  · injection h with h2
    exact Err.noConfusion h2

theorem normalizeIndex_high (j : Nat) (b : Bool) (h : hardenedOffset ≤ j) :
    normalizeIndex j b = (j, true) := by
  simp [normalizeIndex, h, Nat.not_lt.mpr h]

theorem normalizeIndex_low_hardened (i : Nat) (h : i < hardenedOffset) :
    normalizeIndex i true = (i + hardenedOffset, true) := by
  simp [normalizeIndex, Nat.not_le.mpr h, h]

theorem normalizeIndex_low_soft (i : Nat) (h : i < hardenedOffset) :
    normalizeIndex i false = (i, false) := by
  simp [normalizeIndex, Nat.not_le.mpr h]

theorem deriveNormalized_closed (c : Crypto) (k : HDKey) (index : Nat)
    (hardened : Bool) (n : Network) (hnet : k.network = some n)
    (hfp : k.fingerPrint.length = 4)
    (hhm : (deriveHash c k index hardened).length = 64) :
    deriveNormalized c k index hardened =
      .ok (mkHDKey c (natToBytes 4 n.xprivkey) (natToBytes 1 (k.depth + 1))
        k.fingerPrint (natToBytes 4 index)
        ((deriveHash c k index hardened).drop 32 |>.take 32)
        (natToBytes 32
          ((fromBE ((deriveHash c k index hardened).take 32) + k.scalar) %
            curveN))
        (c.b58cChecksum (payloadOf (natToBytes 4 n.xprivkey)
          (natToBytes 1 (k.depth + 1)) k.fingerPrint (natToBytes 4 index)
          ((deriveHash c k index hardened).drop 32 |>.take 32)
          (natToBytes 32
            ((fromBE ((deriveHash c k index hardened).take 32) + k.scalar) %
              curveN)))) none) := by
  have hcc :
      ((deriveHash c k index hardened).drop 32 |>.take 32).length = 32 := by
    simp [hhm]
  unfold deriveNormalized
  rw [hnet]
  exact buildFromObject_closed c n (k.depth + 1) index k.fingerPrint _ _ hfp
    hcc (length_natToBytes 32 _)

theorem buildFromObject_ok_fields (c : Crypto) (o : FieldObj) (k' : HDKey)
    (h : buildFromObject c o = .ok k') :
    (∀ m, o.childIndex = .num m → k'.childIndex = natToBytes 4 m) ∧
    (∀ b, o.privateKey = .buf b → k'.privateKey = b) := by
  unfold buildFromObject at h
  by_cases hn : netArgTruthy o.network = true
  · simp only [hn, if_true] at h
    cases hg : networkGet o.network with
    | none => rw [hg] at h; exact Except.noConfusion h
    | some nw =>
      rw [hg] at h
      have hs := buildFromBuffers_ok_shape _ _ _ h
      constructor
      · intro m hm
        have h1 := hs.2.2.2.1
        rw [hm] at h1
        exact (BufVal.buf.inj h1).symm
      · intro b hb
        have h1 := hs.2.2.2.2.2.1
        rw [hb] at h1
        exact (BufVal.buf.inj h1).symm
  · have hn' : netArgTruthy o.network = false := by
      revert hn; cases netArgTruthy o.network <;> simp
    simp only [hn', Bool.false_eq_true, if_false] at h
    have hs := buildFromBuffers_ok_shape _ _ _ h
    constructor
    · intro m hm
      have h1 := hs.2.2.2.1
      rw [hm] at h1
      exact (BufVal.buf.inj h1).symm
    · intro b hb
      have h1 := hs.2.2.2.2.2.1
      rw [hb] at h1
      exact (BufVal.buf.inj h1).symm

theorem take_append_len {a b : Bytes} {m : Nat} (h : a.length = m) :
    (a ++ b).take m = a := by
  subst h; simp

theorem drop_append_len {a b : Bytes} {m : Nat} (h : a.length = m) :
    (a ++ b).drop m = b := by
  subst h; simp

theorem drop_add_split (l : Bytes) (m n : Nat) :
    l.drop (m + n) = (l.drop n).drop m := by
  rw [List.drop_drop, Nat.add_comm]

theorem take_all_of_len {a : Bytes} {m : Nat} (h : a.length = m) :
    a.take m = a := by
  rw [← h, List.take_length]

theorem buildFromBuffers_closed_emptycs (c : Crypto) (v d pfp ci cc pk : Bytes)
    (xk : Option String) (hv : v.length = 4) (hd : d.length = 1)
    (hpfp : pfp.length = 4) (hci : ci.length = 4) (hcc : cc.length = 32)
    (hpk : pk.length = 32) :
    buildFromBuffers c
        ⟨.buf v, .buf d, .buf pfp, .buf ci, .buf cc, .buf pk, some [], xk⟩ =
      .ok (mkHDKey c v d pfp ci cc pk
        (c.b58cChecksum (payloadOf v d pfp ci cc pk)) xk) := by
  have hvs : validSizes v d pfp ci cc pk (some []) = true := by
    simp [validSizes, hv, hd, hpfp, hci, hcc, hpk]
  simp [buildFromBuffers, hvs]

theorem valid_serialized_decode (c : Crypto) (s : String)
    (h : isValidSerialized c (.str s) .undefinedVal = true) :
    ∃ decoded, c.b58cDecode s = some decoded ∧ decoded.length = 78 := by
  have h' :
      (if (!validCharacters s) = true then some Err.invalidB58Char
       else
         match c.b58cDecode s with
         | none => some Err.invalidB58Checksum
         | some decoded =>
           if decoded.length ≠ 78 then some Err.invalidLength
           else none).isNone = true := h
  by_cases hvc : validCharacters s = true
  · rw [hvc] at h'
    simp only [Bool.not_true, Bool.false_eq_true, if_false] at h'
    rcases hdec : c.b58cDecode s with _ | decoded
    · rw [hdec] at h'
      simp at h'
    · rw [hdec] at h'
      by_cases hlen : decoded.length = 78
      · exact ⟨decoded, rfl, hlen⟩
      · simp [hlen] at h'
  · have hvc' : validCharacters s = false := by
      revert hvc; cases validCharacters s <;> simp
    rw [hvc'] at h'
    simp at h'

theorem payload_slices (v d pfp ci cc pk : Bytes)
    (hv : v.length = 4) (hd : d.length = 1) (hpfp : pfp.length = 4)
    (hci : ci.length = 4) (hcc : cc.length = 32) (hpk : pk.length = 32) :
    (payloadOf v d pfp ci cc pk).take 4 = v ∧
    ((payloadOf v d pfp ci cc pk).drop 4).take 1 = d ∧
    ((payloadOf v d pfp ci cc pk).drop 5).take 4 = pfp ∧
    ((payloadOf v d pfp ci cc pk).drop 9).take 4 = ci ∧
    ((payloadOf v d pfp ci cc pk).drop 13).take 32 = cc ∧
    ((payloadOf v d pfp ci cc pk).drop 46).take 32 = pk ∧
    ((payloadOf v d pfp ci cc pk).drop 78).take 4 = [] ∧
    (payloadOf v d pfp ci cc pk).length = 78 := by
  have hdef : payloadOf v d pfp ci cc pk =
      v ++ (d ++ (pfp ++ (ci ++ (cc ++ ([0] ++ pk))))) := by
    simp [payloadOf, List.append_assoc]
  have r4 : (payloadOf v d pfp ci cc pk).drop 4 =
      d ++ (pfp ++ (ci ++ (cc ++ ([0] ++ pk)))) := by
    rw [hdef]; exact drop_append_len hv
  have r5 : (payloadOf v d pfp ci cc pk).drop 5 =
      pfp ++ (ci ++ (cc ++ ([0] ++ pk))) := by
    have h1 : (payloadOf v d pfp ci cc pk).drop 5 =
        ((payloadOf v d pfp ci cc pk).drop 4).drop 1 :=
      drop_add_split (payloadOf v d pfp ci cc pk) 1 4
    rw [h1, r4]; exact drop_append_len hd
  have r9 : (payloadOf v d pfp ci cc pk).drop 9 =
      ci ++ (cc ++ ([0] ++ pk)) := by
    have h1 : (payloadOf v d pfp ci cc pk).drop 9 =
        ((payloadOf v d pfp ci cc pk).drop 5).drop 4 :=
      drop_add_split (payloadOf v d pfp ci cc pk) 4 5
    rw [h1, r5]; exact drop_append_len hpfp
  have r13 : (payloadOf v d pfp ci cc pk).drop 13 =
      cc ++ ([0] ++ pk) := by
    have h1 : (payloadOf v d pfp ci cc pk).drop 13 =
        ((payloadOf v d pfp ci cc pk).drop 9).drop 4 :=
      drop_add_split (payloadOf v d pfp ci cc pk) 4 9
    rw [h1, r9]; exact drop_append_len hci
  have r45 : (payloadOf v d pfp ci cc pk).drop 45 = [0] ++ pk := by
    have h1 : (payloadOf v d pfp ci cc pk).drop 45 =
        ((payloadOf v d pfp ci cc pk).drop 13).drop 32 :=
      drop_add_split (payloadOf v d pfp ci cc pk) 32 13
    rw [h1, r13]; exact drop_append_len hcc
  have r46 : (payloadOf v d pfp ci cc pk).drop 46 = pk := by
    have h1 : (payloadOf v d pfp ci cc pk).drop 46 =
        ((payloadOf v d pfp ci cc pk).drop 45).drop 1 :=
      drop_add_split (payloadOf v d pfp ci cc pk) 1 45
    rw [h1, r45]; rfl
  have hlenP : (payloadOf v d pfp ci cc pk).length = 78 := by
    simp [payloadOf, hv, hd, hpfp, hci, hcc, hpk]
  have r78 : (payloadOf v d pfp ci cc pk).drop 78 = [] :=
    List.drop_eq_nil_of_le (by rw [hlenP])
  refine ⟨?_, ?_, ?_, ?_, ?_, ?_, ?_, hlenP⟩
  · rw [hdef]; exact take_append_len hv
  · rw [r4]; exact take_append_len hd
  · rw [r5]; exact take_append_len hpfp
  · rw [r9]; exact take_append_len hci
  · rw [r13]; exact take_append_len hcc
  · rw [r46]; exact take_all_of_len hpk
  · rw [r78]; rfl

theorem curveN_pos : 0 < curveN := by decide

theorem curveN_lt_pow : curveN < 256 ^ 32 := by decide

theorem any_not_eq_not_all (l : List Char) (p : Char → Bool) :
    (l.any fun ch => !(p ch)) = !(l.all p) := by
  induction l with
  | nil => rfl
  | cons a t ih => simp [List.any_cons, List.all_cons, ih, Bool.not_and]

theorem getSerializedError_ne_unrecognized (c : Crypto) (d : SData)
    (net : NetworkArg) (e : Err)
    (h : getSerializedError c d net = some e) :
    e ≠ .unrecognizedArgument := by
  unfold getSerializedError at h
  cases d <;> repeat' split at h
  all_goals first
    | (injection h with h2; subst h2; simp)
    | simp at h

theorem fromSeedBuffer_closed (c : Crypto) (b : Bytes) (net : NetworkArg)
    (hhm : (c.sha512hmac b bitcoinSeedKey).length = 64)
    (hmin : 16 ≤ b.length) (hmax : b.length ≤ 64) :
    fromSeedBuffer c b net =
      .ok (mkHDKey c
        (natToBytes 4 ((networkGet net).getD Network.livenet).xprivkey)
        (natToBytes 1 0) (natToBytes 4 0) (natToBytes 4 0)
        ((c.sha512hmac b bitcoinSeedKey).drop 32 |>.take 32)
        ((c.sha512hmac b bitcoinSeedKey).take 32)
        (c.b58cChecksum (payloadOf
          (natToBytes 4 ((networkGet net).getD Network.livenet).xprivkey)
          (natToBytes 1 0) (natToBytes 4 0) (natToBytes 4 0)
          ((c.sha512hmac b bitcoinSeedKey).drop 32 |>.take 32)
          ((c.sha512hmac b bitcoinSeedKey).take 32))) none) := by
  unfold fromSeedBuffer
  rw [if_neg (by omega), if_neg (by omega)]
  have hc := buildFromObject_closed c ((networkGet net).getD Network.livenet)
    0 0 (natToBytes 4 0) ((c.sha512hmac b bitcoinSeedKey).drop 32 |>.take 32)
    ((c.sha512hmac b bitcoinSeedKey).take 32) (length_natToBytes 4 0)
    (by simp [hhm]) (by simp [hhm])
  exact hc

theorem decode_of_encode (c : Crypto) (v d pfp ci cc pk : Bytes)
    (hv : v.length = 4) (hd : d.length = 1) (hpfp : pfp.length = 4)
    (hci : ci.length = 4) (hcc : cc.length = 32) (hpk : pk.length = 32)
    (hb58 : c.b58cDecode (c.b58cEncode (payloadOf v d pfp ci cc pk)) =
      some (payloadOf v d pfp ci cc pk)) :
    buildFromSerialized c (c.b58cEncode (payloadOf v d pfp ci cc pk)) =
      .ok (mkHDKey c v d pfp ci cc pk
        (c.b58cChecksum (payloadOf v d pfp ci cc pk))
        (some (c.b58cEncode (payloadOf v d pfp ci cc pk)))) := by
  obtain ⟨e4, e5, e9, e13, e45, e46, e78, -⟩ :=
    payload_slices v d pfp ci cc pk hv hd hpfp hci hcc hpk
  rw [buildFromSerialized, hb58]
  show buildFromBuffers c
      ⟨.buf ((payloadOf v d pfp ci cc pk).take 4),
        .buf (((payloadOf v d pfp ci cc pk).drop 4).take 1),
        .buf (((payloadOf v d pfp ci cc pk).drop 5).take 4),
        .buf (((payloadOf v d pfp ci cc pk).drop 9).take 4),
        .buf (((payloadOf v d pfp ci cc pk).drop 13).take 32),
        .buf (((payloadOf v d pfp ci cc pk).drop 46).take 32),
        some (((payloadOf v d pfp ci cc pk).drop 78).take 4),
        some (c.b58cEncode (payloadOf v d pfp ci cc pk))⟩ = _
  rw [e4, e5, e9, e13, e45, e46, e78]
  exact buildFromBuffers_closed_emptycs c v d pfp ci cc pk
    (some (c.b58cEncode (payloadOf v d pfp ci cc pk))) hv hd hpfp hci hcc hpk

/-! ### Claim theorems -/

/-- C1: Serialization round-trip. For every valid field-bag (fields of the
layout-table widths), building the key and decoding its Base58Check text
yields byte-identical field values, given that the external Base58Check
codec round-trips on the 78-byte payload; and every serialized text
accepted by `isValidSerialized` builds a key whose serialized form is that
text itself. -/
theorem serialization_roundtrip (c : Crypto) (v d pfp ci cc pk : Bytes)
    (hv : v.length = 4) (hd : d.length = 1) (hpfp : pfp.length = 4)
    (hci : ci.length = 4) (hcc : cc.length = 32) (hpk : pk.length = 32)
    (hb58 : c.b58cDecode (c.b58cEncode (payloadOf v d pfp ci cc pk)) =
      some (payloadOf v d pfp ci cc pk)) :
    (buildFromBuffers c ⟨.buf v, .buf d, .buf pfp, .buf ci, .buf cc, .buf pk,
        none, none⟩).isOk = true ∧
    (∀ k1, buildFromBuffers c ⟨.buf v, .buf d, .buf pfp, .buf ci, .buf cc,
        .buf pk, none, none⟩ = .ok k1 →
      (buildFromSerialized c k1.xprivkey).isOk = true ∧
      ∀ k2, buildFromSerialized c k1.xprivkey = .ok k2 →
        k2.version = v ∧ k2.depthBuffer = d ∧ k2.parentFingerPrint = pfp ∧
        k2.childIndex = ci ∧ k2.chainCode = cc ∧ k2.privateKey = pk ∧
        k2.xprivkey = k1.xprivkey) ∧
    (∀ s, isValidSerialized c (.str s) .undefinedVal = true →
      (buildFromSerialized c s).isOk = true ∧
      ∀ k, buildFromSerialized c s = .ok k → k.xprivkey = s) := by
  have henc := buildFromBuffers_closed c v d pfp ci cc pk none hv hd hpfp hci
    hcc hpk
  have hdec := decode_of_encode c v d pfp ci cc pk hv hd hpfp hci hcc hpk hb58
  refine ⟨by rw [henc]; rfl, ?_, ?_⟩
  · intro k1 hk1
    rw [henc] at hk1
    injection hk1 with hk1'
    subst hk1'
    have hxk : (mkHDKey c v d pfp ci cc pk
        (c.b58cChecksum (payloadOf v d pfp ci cc pk)) none).xprivkey =
        c.b58cEncode (payloadOf v d pfp ci cc pk) := rfl
    rw [hxk, hdec]
    refine ⟨rfl, ?_⟩
    intro k2 hk2
    injection hk2 with hk2'
    subst hk2'
    exact ⟨rfl, rfl, rfl, rfl, rfl, rfl, rfl⟩
  · intro s hvalid
    obtain ⟨decoded, hdc, hlen⟩ := valid_serialized_decode c s hvalid
    have l1 : (decoded.take 4).length = 4 := by simp [hlen]
    have l2 : ((decoded.drop 4).take 1).length = 1 := by simp [hlen]
    have l3 : ((decoded.drop 5).take 4).length = 4 := by simp [hlen]
    have l4 : ((decoded.drop 9).take 4).length = 4 := by simp [hlen]
    have l5 : ((decoded.drop 13).take 32).length = 32 := by simp [hlen]
    have l6 : ((decoded.drop 46).take 32).length = 32 := by simp [hlen]
    have l7 : (decoded.drop 78).take 4 = [] := by
      have h0 : decoded.drop 78 = [] := List.drop_eq_nil_of_le (by rw [hlen])
      rw [h0]; rfl
    have hbuild : buildFromSerialized c s =
        .ok (mkHDKey c (decoded.take 4) ((decoded.drop 4).take 1)
          ((decoded.drop 5).take 4) ((decoded.drop 9).take 4)
          ((decoded.drop 13).take 32) ((decoded.drop 46).take 32)
          (c.b58cChecksum (payloadOf (decoded.take 4)
            ((decoded.drop 4).take 1) ((decoded.drop 5).take 4)
            ((decoded.drop 9).take 4) ((decoded.drop 13).take 32)
            ((decoded.drop 46).take 32))) (some s)) := by
      rw [buildFromSerialized, hdc]
      show buildFromBuffers c
          ⟨.buf (decoded.take 4), .buf ((decoded.drop 4).take 1),
            .buf ((decoded.drop 5).take 4), .buf ((decoded.drop 9).take 4),
            .buf ((decoded.drop 13).take 32),
            .buf ((decoded.drop 46).take 32),
            some ((decoded.drop 78).take 4), some s⟩ = _
      rw [l7]
      exact buildFromBuffers_closed_emptycs c _ _ _ _ _ _ (some s) l1 l2 l3
        l4 l5 l6
    rw [hbuild]
    refine ⟨rfl, ?_⟩
    intro k hk
    injection hk with hk'
    rw [← hk']
    rfl

/-- C1 witness: the round-trip theorem evaluated at a concrete livenet
field bag under the concrete collaborators `cx`. -/
theorem serialization_roundtrip_witness :
    (buildFromBuffers cx ⟨.buf (natToBytes 4 (Network.xprivkey .livenet)),
      .buf [0], .buf (List.replicate 4 0), .buf (List.replicate 4 0),
      .buf (List.replicate 32 1), .buf (List.replicate 32 2), none,
      none⟩).isOk = true :=
  (serialization_roundtrip cx (natToBytes 4 (Network.xprivkey .livenet)) [0]
    (List.replicate 4 0) (List.replicate 4 0) (List.replicate 32 1)
    (List.replicate 32 2) (by decide) (by decide) (by decide) (by decide)
    (by decide) (by decide) (by decide)).1

set_option maxRecDepth 8000 in
/-- C2 counterexample: the claim "depth is parent.depth + 1" fails at depth
255 — the depth byte is written with a single-byte mask, so the child of a
depth-255 parent has depth 0, not 256. The parent is built by the module's
own buffer constructor; derivation succeeds and returns a key. -/
theorem derive_depth_wraps_cex :
    (buildFromBuffers cx bag255).toOption.map HDKey.depth = some 255 ∧
    ((buildFromBuffers cx bag255).toOption.bind
      (fun k => (deriveWithNumber cx k 0 false).toOption)).map HDKey.depth =
      some 0 := by decide

/-- C2 (amended): child derivation algorithm. For every parent key with a
resolvable network and a normalized `(index, hardened)` pair, derivation
succeeds and the child key has: private scalar `(I_L + parent scalar) mod
N` where `I_L` is the first half of `HMAC-SHA512(parent.chainCode, input)`
with `input` exactly `0x00 ‖ privateKey(32B) ‖ index(4B BE)` (hardened) or
`compressed pubkey ‖ index(4B BE)` (non-hardened); chain code `H[32:64]`;
depth `(parent.depth + 1) mod 256` — the depth byte wraps, which is the one
amendment to the claim; parentFingerprint = the parent's fingerprint;
stored childIndex = the normalized index; and the parent's network. -/
theorem derive_child_algorithm (c : Crypto) (k : HDKey) (index : Nat)
    (hardened : Bool)
    (hhm : ∀ dt ky, (c.sha512hmac dt ky).length = 64)
    (hfp : k.fingerPrint.length = 4) (hpk : k.privateKey.length = 32)
    (n : Network) (hnet : k.network = some n)
    (hnorm : hardened = true ↔ hardenedOffset ≤ index) :
    (deriveWithNumber c k index hardened).isOk = true ∧
    hmacInput c k index hardened =
      (if hardened then [0] ++ k.privateKey ++ natToBytes 4 index
       else c.pubKeyBuffer k.scalar ++ natToBytes 4 index) ∧
    ∀ k', deriveWithNumber c k index hardened = .ok k' →
      k'.scalar =
        (fromBE ((c.sha512hmac (hmacInput c k index hardened)
          k.chainCode).take 32) + k.scalar) % curveN ∧
      k'.chainCode =
        ((c.sha512hmac (hmacInput c k index hardened) k.chainCode).drop
          32).take 32 ∧
      k'.depth = (k.depth + 1) % 256 ∧
      k'.parentFingerPrint = k.fingerPrint ∧
      k'.childIndex = natToBytes 4 index ∧
      k'.network = some n := by
  have hn : normalizeIndex index hardened = (index, hardened) := by
    cases hardened
    · have hlt : index < hardenedOffset := by
        by_contra hcon
        have h2 := hnorm.mpr (Nat.le_of_not_lt hcon)
        simp at h2
      exact normalizeIndex_low_soft index hlt
    · exact normalizeIndex_high index true (hnorm.mp rfl)
  have hD : deriveWithNumber c k index hardened =
      deriveNormalized c k index hardened := by
    unfold deriveWithNumber
    rw [hn]
  have hclosed := deriveNormalized_closed c k index hardened n hnet hfp
    (hhm _ _)
  rw [hD, hclosed]
  refine ⟨rfl, rfl, ?_⟩
  intro k' hk'
  injection hk' with hk2
  subst hk2
  have hx : (fromBE ((deriveHash c k index hardened).take 32) + k.scalar) %
      curveN < 256 ^ 32 :=
    lt_trans (Nat.mod_lt _ curveN_pos) curveN_lt_pow
  refine ⟨?_, rfl, rfl, rfl, rfl, network_version_roundtrip n⟩
  show fromBE (natToBytes 32 _) = _
  exact fromBE_natToBytes_of_lt 32 _ hx

/-- C2 witness: the amended derivation theorem evaluated at the concrete
parent `key0`, index 0, non-hardened. -/
theorem derive_child_algorithm_witness :
    (deriveWithNumber cx key0 0 false).isOk = true :=
  (derive_child_algorithm cx key0 0 false
    (fun dt ky => by simp [cx]) (by decide) (by decide) .livenet
    (by decide) (by decide)).1

set_option maxRecDepth 4000 in
/-- C3 counterexample: construction does not enforce `0 <
privateKeyScalar`: a field bag whose private key is 32 zero bytes passes
`_validateBufferArguments` and `_buildFromBuffers` succeeds, yielding a key
with scalar 0. -/
theorem zero_scalar_construction_cex :
    (buildFromBuffers cx bag0).toOption.map HDKey.scalar = some 0 := by
  decide

/-- C3 (amended): the only scalar constraints the module enforces are the
32-byte width (checked by `_validateBufferArguments` on every successful
build) and, for derived children, `scalar < N` (a consequence of the `mod
N` reduction). The lower bound `0 < scalar` is not checked anywhere — see
the counterexample. -/
theorem scalar_range_enforcement (c : Crypto) (k : HDKey) (index : Nat)
    (hardened : Bool) :
    (∀ k', deriveWithNumber c k index hardened = .ok k' →
      k'.scalar < curveN ∧
      k'.privateKey = natToBytes 32
        ((fromBE ((deriveHash c k (normalizeIndex index hardened).1
          (normalizeIndex index hardened).2).take 32) + k.scalar) %
            curveN)) ∧
    (∀ r k', buildFromBuffers c r = .ok k' → k'.privateKey.length = 32) := by
  constructor
  · intro k' hk'
    unfold deriveWithNumber deriveNormalized at hk'
    have hpk := (buildFromObject_ok_fields _ _ _ hk').2 _ rfl
    have hx : (fromBE ((deriveHash c k (normalizeIndex index hardened).1
        (normalizeIndex index hardened).2).take 32) + k.scalar) % curveN <
          256 ^ 32 :=
      lt_trans (Nat.mod_lt _ curveN_pos) curveN_lt_pow
    constructor
    · show fromBE k'.privateKey < curveN
      rw [hpk, fromBE_natToBytes_of_lt 32 _ hx]
      exact Nat.mod_lt _ curveN_pos
    · exact hpk
  · intro r k' hk'
    exact (buildFromBuffers_ok_shape _ _ _ hk').2.2.2.2.2.2.2.2.2.2.2

set_option maxRecDepth 4000 in
/-- C3 witness: the amended range theorem evaluated at the concrete child
`child0` of `key0`. -/
theorem scalar_range_enforcement_witness : child0.scalar < curveN :=
  ((scalar_range_enforcement cx key0 0 false).1 child0 (by rfl)).1

/-- C4: Seed-to-master-key generation. For every byte buffer of accepted
length, `fromSeed` succeeds and the key has private key `H[0:32]`, chain
code `H[32:64]` of `H = HMAC-SHA512(key = Bitcoin seed, message =
entropy)`, depth 0, parentFingerprint 0, childIndex 0, and the given
network (mainnet/livenet by default); a hex string is decoded first. The
embedding is a pure function of `(seed, network)`, so the result is
deterministic by construction. -/
theorem from_seed_master_key (c : Crypto) (b : Bytes) (net : NetworkArg)
    (hhm : ∀ dt ky, (c.sha512hmac dt ky).length = 64)
    (hmin : 16 ≤ b.length) (hmax : b.length ≤ 64) :
    (fromSeed c (.bytes b) net).isOk = true ∧
    (∀ k', fromSeed c (.bytes b) net = .ok k' →
      k'.privateKey = (c.sha512hmac b bitcoinSeedKey).take 32 ∧
      k'.chainCode = ((c.sha512hmac b bitcoinSeedKey).drop 32).take 32 ∧
      k'.depth = 0 ∧ fromBE k'.parentFingerPrint = 0 ∧
      fromBE k'.childIndex = 0 ∧
      k'.network = some ((networkGet net).getD Network.livenet)) ∧
    (∀ s, isHexa s = true →
      fromSeed c (.str s) net = fromSeed c (.bytes (hexToBuffer s)) net) := by
  have hcl := fromSeedBuffer_closed c b net (hhm _ _) hmin hmax
  have hfb : fromSeed c (.bytes b) net = fromSeedBuffer c b net := rfl
  refine ⟨by rw [hfb, hcl]; rfl, ?_, ?_⟩
  · intro k' hk'
    rw [hfb, hcl] at hk'
    injection hk' with hk2
    subst hk2
    refine ⟨rfl, rfl, rfl, ?_, ?_, network_version_roundtrip _⟩
    · show fromBE (natToBytes 4 0) = 0
      decide
    · show fromBE (natToBytes 4 0) = 0
      decide
  · intro s hhex
    show (if isHexa s then fromSeedBuffer c (hexToBuffer s) net
      else .error .invalidEntropyArgument) = _
    rw [hhex]
    rfl

/-- C4 witness: the seed theorem evaluated at a 32-byte zero seed under the
concrete collaborators `cx`. -/
theorem from_seed_master_key_witness :
    (fromSeed cx (.bytes (List.replicate 32 0)) .undefinedVal).isOk = true :=
  (from_seed_master_key cx (List.replicate 32 0) .undefinedVal
    (fun dt ky => by simp [cx]) (by decide) (by decide)).1

/-- C5: Path-string equivalence. `root.derive(0).derive(1).derive(2,
true)` equals `root.derive("m/0/1/2\x27")` for every root key and every
instantiation of the collaborators (both sides are the same fold of child
derivations: the path is split on `/`, the leading segment must be a root
alias, and a segment is hardened exactly when its text differs from the
decimal rendering of its parsed integer — `deriveFromString` is that fold
by definition). A bare root alias returns the key itself, and a path whose
first segment is not a root alias fails `InvalidPath`. -/
theorem path_string_equivalence (c : Crypto) (k : HDKey) :
    (derive c k (.num 0) false >>= fun k1 =>
      derive c k1 (.num 1) false >>= fun k2 =>
        derive c k2 (.num 2) true) =
      derive c k (.str "m/0/1/2\x27") false ∧
    deriveFromString c k "m" = .ok k ∧
    deriveFromString c k "0/1" = .error .invalidPath := by
  refine ⟨?_, rfl, rfl⟩
  show (deriveWithNumber c k 0 false >>= fun k1 =>
      deriveWithNumber c k1 1 false >>= fun k2 =>
        deriveWithNumber c k2 2 true) =
    (deriveWithNumber c k 0 false >>= fun k1 =>
      deriveWithNumber c k1 1 false >>= fun k2 =>
        deriveWithNumber c k2 2 true >>= pure)
  cases deriveWithNumber c k 0 false with
  | error e => rfl
  | ok k1 =>
    show (deriveWithNumber c k1 1 false >>= fun k2 =>
        deriveWithNumber c k2 2 true) =
      (deriveWithNumber c k1 1 false >>= fun k2 =>
        deriveWithNumber c k2 2 true >>= pure)
    cases deriveWithNumber c k1 1 false with
    | error e => rfl
    | ok k2 =>
      show deriveWithNumber c k2 2 true =
        deriveWithNumber c k2 2 true >>= pure
      cases deriveWithNumber c k2 2 true with
      | error e => rfl
      | ok k3 => rfl

/-- C6: Hardened-boundary normalization. For every parent and `i < 2^31`,
`derive(i + 2^31)` and `derive(i, true)` are the same computation; the
stored childIndex of the derived key is the normalized, offset-inclusive
value; and an index at or above `2^31` forces hardened derivation
regardless of the flag. -/
theorem hardened_boundary_normalization (c : Crypto) (k : HDKey) (i : Nat)
    (h : i < hardenedOffset) :
    deriveWithNumber c k (i + hardenedOffset) false =
      deriveWithNumber c k i true ∧
    (∀ k', deriveWithNumber c k i true = .ok k' →
      k'.childIndex = natToBytes 4 (i + hardenedOffset)) ∧
    (∀ j : Nat, ∀ b : Bool, hardenedOffset ≤ j →
      deriveWithNumber c k j b = deriveWithNumber c k j true) := by
  refine ⟨?_, ?_, ?_⟩
  · unfold deriveWithNumber
    rw [normalizeIndex_high (i + hardenedOffset) false (Nat.le_add_left _ _),
      normalizeIndex_low_hardened i h]
  · intro k' hk'
    unfold deriveWithNumber at hk'
    rw [normalizeIndex_low_hardened i h] at hk'
    unfold deriveNormalized at hk'
    exact (buildFromObject_ok_fields _ _ _ hk').1 _ rfl
  · intro j b hj
    unfold deriveWithNumber
    rw [normalizeIndex_high j b hj, normalizeIndex_high j true hj]

/-- C6 witness: the boundary theorem evaluated at `i = 5` on the concrete
parent `key0` (the claim's `derive(0x80000005)` versus `derive(5, true)`). -/
theorem hardened_boundary_normalization_witness :
    deriveWithNumber cx key0 (5 + hardenedOffset) false =
      deriveWithNumber cx key0 5 true :=
  (hardened_boundary_normalization cx key0 5 (by decide)).1

/-- C7: Serialized-form validation order and agreement.
`getSerializedError` equals, input for input, the §4.2 cascade transcribed
from the specification text (`getSerializedErrorBySpec`): InvalidArgument
for non-text/bytes, then InvalidB58Char, then InvalidB58Checksum, then
InvalidLength (≠ 78), then — only when a network is given —
InvalidNetworkArgument / InvalidNetwork, else valid; and
`isValidSerialized` is true exactly when the error is `none`. -/
theorem serialized_validation_cascade (c : Crypto) (data : SData)
    (network : NetworkArg) :
    getSerializedError c data network =
      getSerializedErrorBySpec c data network ∧
    (isValidSerialized c data network = true ↔
      getSerializedError c data network = none) := by
  constructor
  · cases data with
    | other => rfl
    | str s =>
      show (if (!(s.toList.all fun ch => b58Alphabet.contains ch)) = true
          then some Err.invalidB58Char else _) =
        (if (s.toList.any fun ch => !(b58Alphabet.contains ch)) = true
          then some Err.invalidB58Char else _)
      rw [any_not_eq_not_all]
    | bytes b =>
      show (if (!((SData.bytes b).asString.toList.all
            fun ch => b58Alphabet.contains ch)) = true
          then some Err.invalidB58Char else _) =
        (if ((SData.bytes b).asString.toList.any
            fun ch => !(b58Alphabet.contains ch)) = true
          then some Err.invalidB58Char else _)
      rw [any_not_eq_not_all]
  · simp [isValidSerialized, Option.isNone_iff_eq_none]

/-- C8 counterexample: constructing from the unparseable text `"#"` (not
valid Base58, not JSON) throws `InvalidB58Char` — the serialized-form
error — and not `UnrecognizedArgument` as the claim states. -/
theorem unparseable_text_cex :
    errOf (construct cx (.str "#")) = some .invalidB58Char ∧
    Err.invalidB58Char ≠ Err.unrecognizedArgument := by decide

/-- C8 (amended): for every non-empty string (and every buffer) that
neither passes the serialized-form validator nor parses as JSON,
construction fails with the typed error produced by `getSerializedError`
itself (InvalidB58Char / InvalidB58Checksum / InvalidLength, never
`UnrecognizedArgument`; that error is reserved for arguments that are
neither text, bytes, nor object, and an empty string takes the random
path instead). -/
theorem unparseable_text_error (c : Crypto) (s : String) (b : Bytes)
    (e1 e2 : Err) (hs : s ≠ "")
    (hj1 : c.jsonParse s = none)
    (he1 : getSerializedError c (.str s) .undefinedVal = some e1)
    (hj2 : c.jsonParse (SData.bytes b).asString = none)
    (he2 : getSerializedError c (.bytes b) .undefinedVal = some e2) :
    construct c (.str s) = .error e1 ∧ e1 ≠ .unrecognizedArgument ∧
    construct c (.bytes b) = .error e2 ∧ e2 ≠ .unrecognizedArgument := by
  have hv1 : isValidSerialized c (.str s) .undefinedVal = false := by
    simp [isValidSerialized, he1]
  have hv2 : isValidSerialized c (.bytes b) .undefinedVal = false := by
    simp [isValidSerialized, he2]
  have ht : truthyArg (.str s) = true := by simp [truthyArg, hs]
  have hc1 : construct c (.str s) = serialBranch c (.str s) := by
    simp [construct, ht]
  have hc2 : construct c (.bytes b) = serialBranch c (.bytes b) := rfl
  refine ⟨?_, getSerializedError_ne_unrecognized c _ _ _ he1, ?_,
    getSerializedError_ne_unrecognized c _ _ _ he2⟩
  · rw [hc1]
    unfold serialBranch
    rw [hv1]
    show (match c.jsonParse (SData.str s).asString with
      | some o => buildFromObject c o
      | none => .error ((getSerializedError c (.str s) .undefinedVal).getD
          .invalidArgument)) = .error e1
    rw [show (SData.str s).asString = s from rfl, hj1, he1]
    rfl
  · rw [hc2]
    unfold serialBranch
    rw [hv2]
    show (match c.jsonParse (SData.bytes b).asString with
      | some o => buildFromObject c o
      | none => .error ((getSerializedError c (.bytes b) .undefinedVal).getD
          .invalidArgument)) = .error e2
    rw [hj2, he2]
    rfl

/-- C8 witness: the amended theorem evaluated at the concrete text `"#"`
and the one-byte buffer `[35]` (the same character). -/
theorem unparseable_text_error_witness :
    construct cx (.str "#") = .error .invalidB58Char ∧
    construct cx (.bytes [35]) = .error .invalidB58Char :=
  ⟨(unparseable_text_error cx "#" [35] .invalidB58Char .invalidB58Char
      (by decide) (by rfl) (by decide) (by rfl) (by decide)).1,
   (unparseable_text_error cx "#" [35] .invalidB58Char .invalidB58Char
      (by decide) (by rfl) (by decide) (by rfl) (by decide)).2.2.1⟩

/-- C9: Entropy length bounds. Byte buffers below 16 bytes fail
`NotEnoughEntropy`, above 64 bytes fail `TooMuchEntropy`, every length
from 16 to 64 inclusive succeeds, and non-byte, non-hex input fails
`InvalidEntropyArgument`. -/
theorem entropy_length_bounds (c : Crypto) (net : NetworkArg)
    (hhm : ∀ dt ky, (c.sha512hmac dt ky).length = 64) :
    (∀ b : Bytes, b.length < 16 →
      fromSeed c (.bytes b) net = .error .notEnoughEntropy) ∧
    (∀ b : Bytes, 64 < b.length →
      fromSeed c (.bytes b) net = .error .tooMuchEntropy) ∧
    (∀ b : Bytes, 16 ≤ b.length → b.length ≤ 64 →
      (fromSeed c (.bytes b) net).isOk = true) ∧
    (∀ s, isHexa s = false →
      fromSeed c (.str s) net = .error .invalidEntropyArgument) ∧
    fromSeed c .other net = .error .invalidEntropyArgument := by
  refine ⟨?_, ?_, ?_, ?_, rfl⟩
  · intro b hb
    show fromSeedBuffer c b net = _
    unfold fromSeedBuffer
    rw [if_pos hb]
  · intro b hb
    show fromSeedBuffer c b net = _
    unfold fromSeedBuffer
    rw [if_neg (by omega), if_pos hb]
  · intro b h1 h2
    rw [show fromSeed c (.bytes b) net = fromSeedBuffer c b net from rfl,
      fromSeedBuffer_closed c b net (hhm _ _) h1 h2]
    rfl
  · intro s hhex
    show (if isHexa s then fromSeedBuffer c (hexToBuffer s) net
      else .error .invalidEntropyArgument) = _
    rw [hhex]
    rfl

/-- C9 witness: the bounds theorem evaluated at the claim's concrete
lengths 15 (fails), 16 and 64 (succeed), 65 (fails). -/
theorem entropy_length_bounds_witness :
    fromSeed cx (.bytes (List.replicate 15 0)) .undefinedVal =
      .error .notEnoughEntropy ∧
    (fromSeed cx (.bytes (List.replicate 16 0)) .undefinedVal).isOk = true ∧
    (fromSeed cx (.bytes (List.replicate 64 0)) .undefinedVal).isOk = true ∧
    fromSeed cx (.bytes (List.replicate 65 0)) .undefinedVal =
      .error .tooMuchEntropy :=
  ⟨(entropy_length_bounds cx .undefinedVal (fun dt ky => by simp [cx])).1 _
      (by decide),
   (entropy_length_bounds cx .undefinedVal (fun dt ky => by simp [cx])).2.2.1 _
      (by decide) (by decide),
   (entropy_length_bounds cx .undefinedVal (fun dt ky => by simp [cx])).2.2.1 _
      (by decide) (by decide),
   (entropy_length_bounds cx .undefinedVal (fun dt ky => by simp [cx])).2.1 _
      (by decide)⟩

/-- C10: Falsy-argument construction. Every falsy constructor argument —
`undefined`, `null`, `0`, the empty string, `false` — takes the
random-generation path: construction equals `fromSeed` of
`Random.getRandomBuffer(64)` (64 bytes of fresh randomness) with the
default network, and never fails `UnrecognizedArgument`. -/
theorem falsy_argument_random_path (c : Crypto) (arg : CtorArg)
    (h : truthyArg arg = false) :
    construct c arg = fromSeed c (.bytes (c.getRandomBuffer 64)) .undefinedVal ∧
    construct c arg ≠ .error .unrecognizedArgument := by
  have h1 : construct c arg = generateRandomly c := by
    cases arg <;> simp_all [construct, truthyArg]
  rw [h1]
  exact ⟨rfl, fromSeed_ne_unrecognized c _ _⟩

/-- C10 witness: the falsy-path theorem evaluated at each falsy argument
shape: the number 0, the empty string, `false`, `null` and `undefined`. -/
theorem falsy_argument_random_path_witness :
    construct cx (.num 0) =
      fromSeed cx (.bytes (cx.getRandomBuffer 64)) .undefinedVal ∧
    construct cx (.str "") =
      fromSeed cx (.bytes (cx.getRandomBuffer 64)) .undefinedVal ∧
    construct cx (.boolv false) =
      fromSeed cx (.bytes (cx.getRandomBuffer 64)) .undefinedVal ∧
    construct cx .nullv =
      fromSeed cx (.bytes (cx.getRandomBuffer 64)) .undefinedVal ∧
    construct cx .undefinedVal =
      fromSeed cx (.bytes (cx.getRandomBuffer 64)) .undefinedVal :=
  ⟨(falsy_argument_random_path cx (.num 0) (by decide)).1,
   (falsy_argument_random_path cx (.str "") (by decide)).1,
   (falsy_argument_random_path cx (.boolv false) (by decide)).1,
   (falsy_argument_random_path cx .nullv (by decide)).1,
   (falsy_argument_random_path cx .undefinedVal (by decide)).1⟩

end BitcoreHD
